import Mathlib

/-!
Shallow embedding of `src/feeder/push-data.py` (kube-burner OpenSearch feeder)
and proofs about its record-normalization and bulk-batch construction pipeline.

JSON values are modelled by the inductive `JsonValue`; Python dicts become
association lists with Python `dict` update/lookup semantics; Python string
formatting, truthiness, `isinstance(_, int)` (which accepts `bool`), and the
default `json.dumps` output format are modelled explicitly.  Floating-point
values do not occur in any property considered here and are left out of the
value model.
-/

/-- JSON value as handled by the feeder (floats omitted; no claim involves them). -/
inductive JsonValue where
  | str (s : String)
  | int (n : Int)
  | bool (b : Bool)
  | null
  | obj (fields : List (String × JsonValue))
  | arr (elems : List JsonValue)

/-- A record is a Python dict from field name to JSON value, modelled as an
association list with unique keys kept in insertion order. -/
abbrev Record := List (String × JsonValue)

/-- Python `d.get(k)` / `d[k]`: first binding of the key, if any. -/
def dictGet : Record → String → Option JsonValue
  | [], _ => none
  | (k', v') :: rest, k => if k' = k then some v' else dictGet rest k

/-- Python `d[k] = v`: overwrite the existing binding in place, else append. -/
def dictSet : Record → String → JsonValue → Record
  | [], k, v => [(k, v)]
  | (k', v') :: rest, k, v =>
    if k' = k then (k', v) :: rest else (k', v') :: dictSet rest k v

/-- Python `str.lower` restricted to ASCII, which is all `str.lower` does on
the ASCII metric names handled here. -/
def lowerChar (c : Char) : Char :=
  if 65 ≤ c.toNat ∧ c.toNat ≤ 90 then Char.ofNat (c.toNat + 32) else c

/-- Lower-case a string character by character, as Python `str.lower`. -/
def lowerString (s : String) : String :=
  String.mk (s.data.map lowerChar)

/-- Bool-valued prefix test on character lists. -/
def isPrefixOfChars : List Char → List Char → Bool
  | [], _ => true
  | _ :: _, [] => false
  | a :: as, b :: bs => a == b && isPrefixOfChars as bs

/-- Occurrence of `needle` somewhere in `hay`, as Python `needle in hay`. -/
def occursIn : List Char → List Char → Bool
  | needle, [] => needle.isEmpty
  | needle, c :: rest => isPrefixOfChars needle (c :: rest) || occursIn needle rest

/-- Python substring test `needle in hay` on strings. -/
def strContains (hay needle : String) : Bool :=
  occursIn needle.data hay.data

/-- Python truthiness of a JSON value (`if x:`). -/
def pyTruthy : JsonValue → Bool
  | .null => false
  | .bool b => b
  | .int n => n != 0
  | .str s => s != ""
  | .arr xs => !xs.isEmpty
  | .obj fs => !fs.isEmpty

/-- Python `isinstance(v, int)`, which is also true for `bool` values since
`bool` is a subclass of `int`. -/
def pyIsIntInstance : JsonValue → Bool
  | .int _ => true
  | .bool _ => true
  | _ => false

/-- Decimal digit character. -/
def decDigit (n : Nat) : Char :=
  "0123456789".data.getD n '0'

/-- Fuel-driven accumulation of the decimal digits of `n`, most significant
first; `fuel = n + 1` always suffices. -/
def natDigitsAux : Nat → Nat → List Char → List Char
  | 0, _, acc => acc
  | fuel + 1, n, acc =>
    if n < 10 then decDigit n :: acc
    else natDigitsAux fuel (n / 10) (decDigit (n % 10) :: acc)

/-- Decimal rendering of a natural number, as Python `str`/`repr` of a
non-negative `int`. -/
def natRepr (n : Nat) : String :=
  String.mk (natDigitsAux (n + 1) n [])

/-- Python `f"{n:04d}"`: decimal rendering zero-padded to a minimum total
width of 4 (the sign counts toward the width; wider numbers are untouched). -/
def zeroPad4 (n : Int) : String :=
  if n < 0 then
    let digits := natRepr n.natAbs
    "-" ++ String.mk (List.replicate (3 - digits.length) '0') ++ digits
  else
    let digits := natRepr n.toNat
    String.mk (List.replicate (4 - digits.length) '0') ++ digits

/-- Hex digit (lower case), as used by `json.dumps` in `\uXXXX` escapes. -/
def hexDigit (n : Nat) : Char :=
  "0123456789abcdef".data.getD n '0'

/-- Four-digit hexadecimal rendering of a code unit. -/
def hex4 (n : Nat) : List Char :=
  [hexDigit (n / 4096 % 16), hexDigit (n / 256 % 16), hexDigit (n / 16 % 16), hexDigit (n % 16)]

/-- Escape of one character inside a JSON string literal, following
`json.dumps` with its default `ensure_ascii=True` (short escapes for the
common control characters, `\uXXXX` otherwise, surrogate pairs beyond the
basic multilingual plane). -/
def escapeChar (c : Char) : List Char :=
  if c = '\"' then ['\\', '\"']
  else if c = '\\' then ['\\', '\\']
  else if c = '\n' then ['\\', 'n']
  else if c = '\r' then ['\\', 'r']
  else if c = '\t' then ['\\', 't']
  else if c.toNat = 8 then ['\\', 'b']
  else if c.toNat = 12 then ['\\', 'f']
  else if c.toNat < 32 then '\\' :: 'u' :: hex4 c.toNat
  else if c.toNat < 127 then [c]
  else if c.toNat < 65536 then '\\' :: 'u' :: hex4 c.toNat
  else '\\' :: 'u' :: hex4 (55296 + (c.toNat - 65536) / 1024)
       ++ '\\' :: 'u' :: hex4 (56320 + (c.toNat - 65536) % 1024)

/-- JSON string literal as produced by `json.dumps`. -/
def encodeStringJson (s : String) : String :=
  String.mk ('\"' :: (s.data.flatMap escapeChar ++ ['\"']))

/-- Python `repr` of an `int`, as emitted by `json.dumps`. -/
def intRepr (n : Int) : String :=
  if n < 0 then "-" ++ natRepr n.natAbs else natRepr n.toNat

mutual

/-- Model of `json.dumps(v)` with default arguments: single-line output with
item separator `", "` and key separator `": "`. -/
def jsonDumps : JsonValue → String
  | .str s => encodeStringJson s
  | .int n => intRepr n
  | .bool b => if b then "true" else "false"
  | .null => "null"
  | .obj fs => "\x7b" ++ jsonDumpsFields fs ++ "\x7d"
  | .arr xs => "[" ++ jsonDumpsElems xs ++ "]"

/-- Serialization of the key/value pairs of a JSON object. -/
def jsonDumpsFields : List (String × JsonValue) → String
  | [] => ""
  | [(k, v)] => encodeStringJson k ++ ": " ++ jsonDumps v
  | (k, v) :: rest => encodeStringJson k ++ ": " ++ jsonDumps v ++ ", " ++ jsonDumpsFields rest

/-- Serialization of the elements of a JSON array. -/
def jsonDumpsElems : List JsonValue → String
  | [] => ""
  | [v] => jsonDumps v
  | v :: rest => jsonDumps v ++ ", " ++ jsonDumpsElems rest

end

/-- Python `sep.join(xs)`. -/
def pyJoin (sep : String) : List String → String
  | [] => ""
  | [x] => x
  | x :: xs => x ++ sep ++ pyJoin sep xs

/-- Accumulating worker for `pySplitlines`. -/
def splitlinesAux : List Char → List Char → List String
  | [], acc => if acc.isEmpty then [] else [String.mk acc.reverse]
  | c :: rest, acc =>
    if c = '\n' then String.mk acc.reverse :: splitlinesAux rest []
    else splitlinesAux rest (c :: acc)

/-- Python `s.splitlines()` for newline-only line breaks: a trailing newline
terminates the last line rather than opening an empty one, and the empty
string has no lines. -/
def pySplitlines (s : String) : List String :=
  splitlinesAux s.data []

/-- Configuration of the uploader object relevant to batch construction:
`index_name` and `data_type` as stored by `OpenSearchBulkUploader.__init__`. -/
structure OpenSearchBulkUploader where
  index_name : String
  data_type : String

/-- Branch structure of `get_data_type_from_records` (lines 37-44) on the
already lower-cased metric name. -/
def classifyLowered (metric_name : String) : String :=
  if strContains metric_name "dv" || strContains metric_name "datavolume" then "dv-latency"
  else if strContains metric_name "vmi" || strContains metric_name "virtualmachine" then "vmi-latency"
  else if strContains metric_name "pod" then "pod-latency"
  else "generic"

/-- Model of `get_data_type_from_records` (lines 29-44).  The result is
`none` exactly when the Python code would raise: `.lower()` on a
`metricName` value that is not a string. -/
def get_data_type_from_records (records : List Record) : Option String :=
  match records with
  | [] => some "unknown"
  | sample_record :: _ =>
    match dictGet sample_record "metricName" with
    | some (JsonValue.str s) => some (classifyLowered (lowerString s))
    | none => some (classifyLowered (lowerString ""))
    | some _ => none

/-- Modelled from the spec (section 4.2): the detector as the spec words it,
lower-casing the first record's metric name and classifying by the fixed
substring priority order.  Used only to compare the source detector against
the spec's description. -/
def detectSpec (m : String) : String :=
  let lm := lowerString m
  if strContains lm "dv" || strContains lm "datavolume" then "dv-latency"
  else if strContains lm "vmi" || strContains lm "virtualmachine" then "vmi-latency"
  else if strContains lm "pod" then "pod-latency"
  else "generic"

/-- Enrichment step of lines 132-134: tag the record with the organization id
when one is supplied and truthy (the empty string is falsy in Python). -/
def orgTag (organization_id : Option String) (record : Record) : Record :=
  match organization_id with
  | some oid => if oid = "" then record else dictSet record "organizationID" (JsonValue.str oid)
  | none => record

/-- Enrichment step of lines 136-142 for one key: when the key is present and
`isinstance(value, int)` holds (so also for booleans, whose integer values
are 1 and 0), rewrite the value as the zero-padded decimal string. -/
def padStep (key : String) (record : Record) : Record :=
  match dictGet record key with
  | some (JsonValue.int n) => dictSet record key (JsonValue.str (zeroPad4 n))
  | some (JsonValue.bool b) => dictSet record key (JsonValue.str (zeroPad4 (if b then 1 else 0)))
  | _ => record

/-- Enrichment step of lines 148-150: copy `timestamp` verbatim into
`@timestamp` when present. -/
def timestampStep (record : Record) : Record :=
  match dictGet record "timestamp" with
  | some ts => dictSet record "@timestamp" ts
  | none => record

/-- Whole-record enrichment, the loop body of lines 131-150 in source order:
organization tagging, `jobIteration` and `replica` zero-padding, the constant
`source` and `dataType` tags, then the `@timestamp` alias. -/
def enrichRecord (organization_id : Option String) (detected_data_type : String)
    (record : Record) : Record :=
  timestampStep
    (dictSet
      (dictSet (padStep "replica" (padStep "jobIteration" (orgTag organization_id record)))
        "source" (JsonValue.str "direct-api"))
      "dataType" (JsonValue.str detected_data_type))

/-- Index-name computation of lines 152-154: suffix the prefix with the
category unless the category is `generic`. -/
def finalIndexName (index_name detected_data_type : String) : String :=
  let index_suffix := if detected_data_type ≠ "generic" then "-" ++ detected_data_type else ""
  index_name ++ index_suffix

/-- Bulk action directive of line 155. -/
def actionLine (index_name detected_data_type : String) : JsonValue :=
  JsonValue.obj [("index", JsonValue.obj
    [("_index", JsonValue.str (finalIndexName index_name detected_data_type))])]

/-- The two serialized lines appended for one record (lines 155-157). -/
def recordLines (u : OpenSearchBulkUploader) (detected_data_type : String)
    (organization_id : Option String) (record : Record) : List String :=
  [jsonDumps (actionLine u.index_name detected_data_type),
   jsonDumps (JsonValue.obj (enrichRecord organization_id detected_data_type record))]

/-- Category selection of line 129: detect only when the configured mode is
the sentinel `auto`, otherwise use the configured mode verbatim. -/
def detectedDataType (u : OpenSearchBulkUploader) (records : List Record) : Option String :=
  if u.data_type = "auto" then get_data_type_from_records records else some u.data_type

/-- Model of `prepare_bulk_data` (lines 124-159): two serialized lines per
record joined by newlines, with one final trailing newline. -/
def prepare_bulk_data (u : OpenSearchBulkUploader) (records : List Record)
    (organization_id : Option String) : Option String :=
  (detectedDataType u records).map
    (fun d => pyJoin "\n" (records.flatMap (recordLines u d organization_id)) ++ "\n")

/-- Outcome of one HTTP round trip as seen by `bulk_upload`: either a
transport-level error (raised `requests` exception) or a response with a
status code and a body that may or may not parse as JSON. -/
inductive HttpResult where
  | netError
  | response (status : Nat) (body : Option JsonValue)

/-- Result reported by `bulk_upload`: overall success flag, the per-item
error objects printed on a partial failure, and the indexed-document count
printed on success. -/
structure UploadOutcome where
  success : Bool
  reportedErrors : List JsonValue
  indexedCount : Option Nat

/-- Python `requests.Response.raise_for_status` raises exactly for status
codes in 400-599. -/
def raiseForStatusFails (status : Nat) : Bool :=
  400 ≤ status && status < 600

/-- Python `k in v` for a string key against a JSON value: key membership for
objects, element equality for arrays, substring for strings; `none` models
the `TypeError` raised on the remaining types. -/
def pyContainsKey (v : JsonValue) (k : String) : Option Bool :=
  match v with
  | .obj fs => some (fs.any (fun p => p.1 == k))
  | .arr xs => some (xs.any (fun x => match x with | .str s => s == k | _ => false))
  | .str s => some (strContains s k)
  | _ => none

/-- Python `for x in v`: objects iterate their keys, strings their
characters; `none` models the `TypeError` on non-iterable values. -/
def pyIterate (v : JsonValue) : Option (List JsonValue) :=
  match v with
  | .arr xs => some xs
  | .obj fs => some (fs.map (fun p => JsonValue.str p.1))
  | .str s => some (s.data.map (fun c => JsonValue.str (String.singleton c)))
  | _ => none

/-- Python `len(v)`; `none` models the `TypeError` on unsized values. -/
def pyLen (v : JsonValue) : Option Nat :=
  match v with
  | .arr xs => some xs.length
  | .obj fs => some fs.length
  | .str s => some s.length
  | _ => none

/-- Evaluation of line 174, `if "index" in item and "error" in item["index"]`,
followed by the extraction of `item["index"]["error"]` (line 175).  The outer
`none` models an uncaught `TypeError`/crash; `some none` means the item
reported no error; `some (some e)` is the error object printed for it. -/
def itemReportedError (item : JsonValue) : Option (Option JsonValue) :=
  match pyContainsKey item "index" with
  | none => none
  | some false => some none
  | some true =>
    match item with
    | .obj fs =>
      match dictGet fs "index" with
      | some idxv =>
        match pyContainsKey idxv "error" with
        | none => none
        | some false => some none
        | some true =>
          match idxv with
          | .obj xfs => some (dictGet xfs "error")
          | _ => none
      | none => none
    | _ => none

/-- Loop of lines 173-175 over the response items; `none` when any iteration
would raise. -/
def collectReports : List JsonValue → Option (List JsonValue)
  | [] => some []
  | item :: rest =>
    match itemReportedError item, collectReports rest with
    | some r, some rs => some (r.toList ++ rs)
    | _, _ => none

/-- Iterable of `result.get("items", [])` (line 173): the default is the
empty list when the key is absent; a present value is iterated with Python
`for` semantics. -/
def itemsIter (fields : List (String × JsonValue)) : Option (List JsonValue) :=
  match dictGet fields "items" with
  | none => some []
  | some v => pyIterate v

/-- Value of `len(result.get("items", []))` (line 178). -/
def itemsLen (fields : List (String × JsonValue)) : Option Nat :=
  match dictGet fields "items" with
  | none => some 0
  | some v => pyLen v

/-- Model of `bulk_upload` (lines 161-183).  Transport errors, 4xx/5xx
statuses (via `raise_for_status`) and JSON-decode failures are caught by the
`except` clause and reported as failure; otherwise the parsed body's `errors`
flag is tested for truthiness and the items are either scanned for per-item
errors (failure) or counted (success).  The outer `none` models an uncaught
exception, e.g. `result.get` on a non-object body. -/
def bulk_upload (resp : HttpResult) : Option UploadOutcome :=
  match resp with
  | .netError => some ⟨false, [], none⟩
  | .response status body =>
    if raiseForStatusFails status then some ⟨false, [], none⟩
    else
      match body with
      | none => some ⟨false, [], none⟩
      | some result =>
        match result with
        | .obj fields =>
          if pyTruthy ((dictGet fields "errors").getD JsonValue.null) then
            match itemsIter fields with
            | none => none
            | some items =>
              match collectReports items with
              | none => none
              | some reps => some ⟨false, reps, none⟩
          else
            match itemsLen fields with
            | none => none
            | some cnt => some ⟨true, [], some cnt⟩
        | _ => none

/-- Observable steps of `main` (lines 300-311). -/
inductive MainStep where
  | templatePut
  | bulkUpload
  | exitCode (code : Nat)
deriving DecidableEq

/-- Straight-line control flow of `main` (lines 300-311), parametrized by the
outcome of the template PUT and of the upload: the template result is
discarded, the upload always runs, and the exit code depends only on the
upload result. -/
def mainTrace (templateOk uploadOk : Bool) : List MainStep :=
  [MainStep.templatePut, MainStep.bulkUpload,
   MainStep.exitCode (if uploadOk then 0 else 1)]

/-! Basic lemmas about the dict model. -/

theorem dictGet_dictSet_self (r : Record) (k : String) (v : JsonValue) :
    dictGet (dictSet r k v) k = some v := by
  induction r with
  | nil => simp [dictGet, dictSet]
  | cons p rest ih =>
    obtain ⟨k', v'⟩ := p
    by_cases h : k' = k <;> simp [dictGet, dictSet, h, ih]

theorem dictGet_dictSet_ne (r : Record) (k k2 : String) (v : JsonValue) (h : k2 ≠ k) :
    dictGet (dictSet r k v) k2 = dictGet r k2 := by
  have h' : k ≠ k2 := Ne.symm h
  induction r with
  | nil => simp [dictGet, dictSet, h']
  | cons p rest ih =>
    obtain ⟨k', v'⟩ := p
    by_cases hk : k' = k
    · subst hk
      simp [dictGet, dictSet, h']
    · simp [dictGet, dictSet, hk, ih]

theorem dictGet_dictSet_isSome (r : Record) (k k2 : String) (v : JsonValue)
    (h : (dictGet r k2).isSome) : (dictGet (dictSet r k v) k2).isSome := by
  by_cases hk : k2 = k
  · subst hk; simp [dictGet_dictSet_self]
  · rwa [dictGet_dictSet_ne r k k2 v hk]

/-! Lemmas about the individual enrichment steps. -/

theorem dictGet_orgTag_ne (o : Option String) (r : Record) (k : String)
    (h : k ≠ "organizationID") : dictGet (orgTag o r) k = dictGet r k := by
  cases o with
  | none => rfl
  | some oid =>
    by_cases hoid : oid = "" <;> simp [orgTag, hoid, dictGet_dictSet_ne _ _ _ _ h]

theorem dictGet_orgTag_not_truthy (o : Option String) (r : Record) (k : String)
    (h : o = none ∨ o = some "") : dictGet (orgTag o r) k = dictGet r k := by
  rcases h with h | h <;> subst h <;> simp [orgTag]

theorem dictGet_orgTag_truthy (oid : String) (r : Record) (h : oid ≠ "") :
    dictGet (orgTag (some oid) r) "organizationID" = some (JsonValue.str oid) := by
  simp [orgTag, h, dictGet_dictSet_self]

theorem dictGet_orgTag_isSome (o : Option String) (r : Record) (k : String)
    (h : (dictGet r k).isSome) : (dictGet (orgTag o r) k).isSome := by
  cases o with
  | none => exact h
  | some oid =>
    by_cases hoid : oid = "" <;> simp [orgTag, hoid, h, dictGet_dictSet_isSome _ _ _ _ h]

theorem dictGet_padStep_ne (key : String) (r : Record) (k : String) (h : k ≠ key) :
    dictGet (padStep key r) k = dictGet r k := by
  unfold padStep
  split <;> first
    | rfl
    | exact dictGet_dictSet_ne _ _ _ _ h

theorem dictGet_padStep_int (key : String) (r : Record) (n : Int)
    (h : dictGet r key = some (JsonValue.int n)) :
    dictGet (padStep key r) key = some (JsonValue.str (zeroPad4 n)) := by
  unfold padStep
  rw [h]
  exact dictGet_dictSet_self _ _ _

theorem dictGet_padStep_bool (key : String) (r : Record) (b : Bool)
    (h : dictGet r key = some (JsonValue.bool b)) :
    dictGet (padStep key r) key = some (JsonValue.str (zeroPad4 (if b then 1 else 0))) := by
  unfold padStep
  rw [h]
  exact dictGet_dictSet_self _ _ _

theorem dictGet_padStep_none (key : String) (r : Record)
    (h : dictGet r key = none) : dictGet (padStep key r) key = none := by
  unfold padStep
  rw [h]
  exact h

theorem dictGet_padStep_other (key : String) (r : Record) (v : JsonValue)
    (h : dictGet r key = some v) (hv : pyIsIntInstance v = false) :
    dictGet (padStep key r) key = some v := by
  unfold padStep
  rw [h]
  cases v <;> first
    | exact h
    | simp [pyIsIntInstance] at hv

theorem dictGet_padStep_isSome (key : String) (r : Record) (k : String)
    (h : (dictGet r k).isSome) : (dictGet (padStep key r) k).isSome := by
  unfold padStep
  split <;> first
    | exact h
    | exact dictGet_dictSet_isSome _ _ _ _ h

theorem dictGet_timestampStep_ne (r : Record) (k : String) (h : k ≠ "@timestamp") :
    dictGet (timestampStep r) k = dictGet r k := by
  unfold timestampStep
  split <;> first
    | rfl
    | exact dictGet_dictSet_ne _ _ _ _ h

theorem dictGet_timestampStep_of_ts (r : Record) (ts : JsonValue)
    (h : dictGet r "timestamp" = some ts) :
    dictGet (timestampStep r) "@timestamp" = some ts := by
  unfold timestampStep
  rw [h]
  exact dictGet_dictSet_self _ _ _

theorem timestampStep_of_no_ts (r : Record) (h : dictGet r "timestamp" = none) :
    timestampStep r = r := by
  unfold timestampStep
  rw [h]

theorem dictGet_timestampStep_isSome (r : Record) (k : String)
    (h : (dictGet r k).isSome) : (dictGet (timestampStep r) k).isSome := by
  unfold timestampStep
  split <;> first
    | exact h
    | exact dictGet_dictSet_isSome _ _ _ _ h

/-- Lookup of any key other than `source`, `dataType`, `@timestamp` passes
through the tail of the enrichment chain to the padded-and-tagged record. -/
theorem dictGet_enrich_reduce (o : Option String) (c : String) (r : Record) (k : String)
    (h1 : k ≠ "source") (h2 : k ≠ "dataType") (h3 : k ≠ "@timestamp") :
    dictGet (enrichRecord o c r) k
      = dictGet (padStep "replica" (padStep "jobIteration" (orgTag o r))) k := by
  unfold enrichRecord
  rw [dictGet_timestampStep_ne _ _ h3, dictGet_dictSet_ne _ _ _ _ h2,
    dictGet_dictSet_ne _ _ _ _ h1]

/-! Character-level facts about the serialized output. -/

theorem string_mk_data (s : String) : String.mk s.data = s := by
  cases s
  rfl

theorem getLast_mem_char {l : List Char} {c : Char} (h : l.getLast? = some c) : c ∈ l := by
  have hmem : c ∈ l.getLast? := by simp [h]
  obtain ⟨hn, rfl⟩ := List.mem_getLast?_eq_getLast hmem
  exact List.getLast_mem hn

theorem decDigit_ne_nl (n : Nat) : decDigit n ≠ '\n' := by
  unfold decDigit
  by_cases h : n < 10
  · interval_cases n <;> decide
  · rw [List.getD_eq_default]
    · decide
    · simpa using Nat.le_of_not_lt h

theorem hexDigit_ne_nl (n : Nat) : hexDigit n ≠ '\n' := by
  unfold hexDigit
  by_cases h : n < 16
  · interval_cases n <;> decide
  · rw [List.getD_eq_default]
    · decide
    · simpa using Nat.le_of_not_lt h

theorem hex4_no_nl (m : Nat) : '\n' ∉ hex4 m := by
  intro hm
  simp only [hex4, List.mem_cons, List.not_mem_nil, or_false] at hm
  rcases hm with h | h | h | h <;> exact hexDigit_ne_nl _ h.symm

theorem natDigitsAux_no_nl (fuel : Nat) :
    ∀ (n : Nat) (acc : List Char), '\n' ∉ acc → '\n' ∉ natDigitsAux fuel n acc := by
  induction fuel with
  | zero => intro n acc h; exact h
  | succ fuel ih =>
    intro n acc h
    simp only [natDigitsAux]
    by_cases hn : n < 10
    · rw [if_pos hn]
      intro hm
      rcases List.mem_cons.mp hm with h1 | h1
      · exact decDigit_ne_nl n h1.symm
      · exact h h1
    · rw [if_neg hn]
      refine ih _ _ ?_
      intro hm
      rcases List.mem_cons.mp hm with h1 | h1
      · exact decDigit_ne_nl _ h1.symm
      · exact h h1

theorem natRepr_no_nl (n : Nat) : '\n' ∉ (natRepr n).data :=
  natDigitsAux_no_nl (n + 1) n [] (by simp)

theorem intRepr_no_nl (n : Int) : '\n' ∉ (intRepr n).data := by
  unfold intRepr
  split
  · intro hm
    rw [String.data_append] at hm
    rcases List.mem_append.mp hm with h | h
    · simp at h
    · exact natRepr_no_nl _ h
  · exact natRepr_no_nl _

theorem no_nl_hexEscape (m : Nat) : '\n' ∉ '\\' :: 'u' :: hex4 m := by
  intro hm
  rcases List.mem_cons.mp hm with h | hm
  · exact absurd h (by decide)
  rcases List.mem_cons.mp hm with h | hm
  · exact absurd h (by decide)
  exact hex4_no_nl _ hm

theorem escapeChar_no_nl (c : Char) : '\n' ∉ escapeChar c := by
  unfold escapeChar
  by_cases h1 : c = '\"'
  · rw [if_pos h1]; decide
  rw [if_neg h1]
  by_cases h2 : c = '\\'
  · rw [if_pos h2]; decide
  rw [if_neg h2]
  by_cases h3 : c = '\n'
  · rw [if_pos h3]; decide
  rw [if_neg h3]
  by_cases h4 : c = '\r'
  · rw [if_pos h4]; decide
  rw [if_neg h4]
  by_cases h5 : c = '\t'
  · rw [if_pos h5]; decide
  rw [if_neg h5]
  by_cases h6 : c.toNat = 8
  · rw [if_pos h6]; decide
  rw [if_neg h6]
  by_cases h7 : c.toNat = 12
  · rw [if_pos h7]; decide
  rw [if_neg h7]
  by_cases h8 : c.toNat < 32
  · rw [if_pos h8]; exact no_nl_hexEscape _
  rw [if_neg h8]
  by_cases h9 : c.toNat < 127
  · rw [if_pos h9]
    intro hm
    exact h3 (List.mem_singleton.mp hm).symm
  rw [if_neg h9]
  by_cases h10 : c.toNat < 65536
  · rw [if_pos h10]; exact no_nl_hexEscape _
  rw [if_neg h10]
  intro hm
  rcases List.mem_cons.mp hm with h | hm
  · exact absurd h (by decide)
  rcases List.mem_cons.mp hm with h | hm
  · exact absurd h (by decide)
  rcases List.mem_append.mp hm with hm | hm
  · exact hex4_no_nl _ hm
  exact no_nl_hexEscape _ hm

theorem encodeStringJson_no_nl (s : String) : '\n' ∉ (encodeStringJson s).data := by
  intro hm
  simp only [encodeStringJson, List.mem_cons, List.mem_append, List.mem_flatMap,
    List.mem_singleton] at hm
  rcases hm with h | ⟨c, _, hc⟩ | h
  · exact absurd h (by decide)
  · exact escapeChar_no_nl c hc
  · exact absurd h (by decide)

mutual

theorem jsonDumps_no_nl (v : JsonValue) : '\n' ∉ (jsonDumps v).data := by
  cases v with
  | str s => exact encodeStringJson_no_nl s
  | int n => exact intRepr_no_nl n
  | bool b => cases b <;> decide
  | null => decide
  | obj fs =>
    intro h
    simp only [jsonDumps, String.data_append, List.mem_append] at h
    rcases h with (h | h) | h
    · simp at h
    · exact jsonDumpsFields_no_nl fs h
    · simp at h
  | arr xs =>
    intro h
    simp only [jsonDumps, String.data_append, List.mem_append] at h
    rcases h with (h | h) | h
    · simp at h
    · exact jsonDumpsElems_no_nl xs h
    · simp at h

theorem jsonDumpsFields_no_nl (fs : List (String × JsonValue)) :
    '\n' ∉ (jsonDumpsFields fs).data := by
  match fs with
  | [] => simp [jsonDumpsFields]
  | [(k, v)] =>
    intro h
    simp only [jsonDumpsFields, String.data_append, List.mem_append] at h
    rcases h with (h | h) | h
    · exact encodeStringJson_no_nl k h
    · simp at h
    · exact jsonDumps_no_nl v h
  | (k, v) :: (p :: rest) =>
    intro h
    simp only [jsonDumpsFields, String.data_append, List.mem_append] at h
    rcases h with (((h | h) | h) | h) | h
    · exact encodeStringJson_no_nl k h
    · simp at h
    · exact jsonDumps_no_nl v h
    · simp at h
    · exact jsonDumpsFields_no_nl (p :: rest) h

theorem jsonDumpsElems_no_nl (xs : List JsonValue) : '\n' ∉ (jsonDumpsElems xs).data := by
  match xs with
  | [] => simp [jsonDumpsElems]
  | [v] => exact jsonDumps_no_nl v
  | v :: (p :: rest) =>
    intro h
    simp only [jsonDumpsElems, String.data_append, List.mem_append] at h
    rcases h with (h | h) | h
    · exact jsonDumps_no_nl v h
    · simp at h
    · exact jsonDumpsElems_no_nl (p :: rest) h

end

theorem jsonDumps_obj_ne_nil (fs : List (String × JsonValue)) :
    (jsonDumps (JsonValue.obj fs)).data ≠ [] := by
  simp [jsonDumps, String.data_append]

/-! Lemmas relating the joined payload to its line decomposition. -/

theorem splitlinesAux_append (cs : List Char) (rest : List Char) (h : '\n' ∉ cs) :
    ∀ acc : List Char,
      splitlinesAux (cs ++ '\n' :: rest) acc
        = String.mk (acc.reverse ++ cs) :: splitlinesAux rest [] := by
  induction cs with
  | nil => intro acc; simp [splitlinesAux]
  | cons c cs ih =>
    intro acc
    have hc : c ≠ '\n' := by
      intro hh
      apply h
      rw [hh]
      exact List.mem_cons_self _ _
    have h' : '\n' ∉ cs := fun hm => h (List.mem_cons_of_mem _ hm)
    simp only [List.cons_append, splitlinesAux, List.append_eq]
    rw [if_neg hc]
    have hih := ih h' (c :: acc)
    simp only [List.append_eq] at hih
    rw [hih]
    simp [List.append_assoc]

theorem pySplitlines_pyJoin (ls : List String) (hne : ls ≠ [])
    (h : ∀ l ∈ ls, '\n' ∉ l.data) :
    pySplitlines (pyJoin "\n" ls ++ "\n") = ls := by
  induction ls with
  | nil => cases hne rfl
  | cons x xs ih =>
    cases xs with
    | nil =>
      show splitlinesAux ((pyJoin "\n" [x] ++ "\n").data) [] = [x]
      have hd : (pyJoin "\n" [x] ++ "\n").data = x.data ++ '\n' :: [] := by
        simp [pyJoin, String.data_append]
      rw [hd, splitlinesAux_append _ _ (h x (by simp)) []]
      simp [splitlinesAux, string_mk_data]
    | cons y ys =>
      have hx : '\n' ∉ x.data := h x (by simp)
      have h' : ∀ l ∈ y :: ys, '\n' ∉ l.data := fun l hl => h l (List.mem_cons_of_mem _ hl)
      show splitlinesAux ((pyJoin "\n" (x :: y :: ys) ++ "\n").data) [] = x :: y :: ys
      have hd : (pyJoin "\n" (x :: y :: ys) ++ "\n").data
          = x.data ++ '\n' :: (pyJoin "\n" (y :: ys) ++ "\n").data := by
        simp [pyJoin, String.data_append, List.append_assoc]
      rw [hd, splitlinesAux_append _ _ hx []]
      have ht : splitlinesAux ((pyJoin "\n" (y :: ys) ++ "\n").data) [] = y :: ys :=
        ih (by simp) h'
      rw [ht]
      simp [string_mk_data]

theorem pyJoin_last_ne_nl (ls : List String) (hne : ls ≠ [])
    (h : ∀ l ∈ ls, l.data ≠ [] ∧ '\n' ∉ l.data) :
    (pyJoin "\n" ls).data ≠ [] ∧ (pyJoin "\n" ls).data.getLast? ≠ some '\n' := by
  induction ls with
  | nil => cases hne rfl
  | cons x xs ih =>
    cases xs with
    | nil =>
      refine ⟨(h x (by simp)).1, ?_⟩
      intro hlast
      exact (h x (by simp)).2 (getLast_mem_char hlast)
    | cons y ys =>
      have ih' := ih (by simp) (fun l hl => h l (List.mem_cons_of_mem _ hl))
      have hd : (pyJoin "\n" (x :: y :: ys)).data
          = (x.data ++ ['\n']) ++ (pyJoin "\n" (y :: ys)).data := by
        simp [pyJoin, String.data_append]
      constructor
      · rw [hd]
        intro hnil
        rcases List.append_eq_nil.mp hnil with ⟨h1, _⟩
        rcases List.append_eq_nil.mp h1 with ⟨_, h2⟩
        simp at h2
      · rw [hd, List.getLast?_append_of_ne_nil _ ih'.1]
        exact ih'.2

theorem length_flatMap_recordLines (u : OpenSearchBulkUploader) (d : String)
    (o : Option String) (records : List Record) :
    (records.flatMap (recordLines u d o)).length = 2 * records.length := by
  induction records with
  | nil => rfl
  | cons r rs ih =>
    simp only [List.flatMap_cons, List.length_append, ih, recordLines, List.length_cons,
      List.length_nil, List.length_singleton]
    omega

theorem mem_flatMap_recordLines (u : OpenSearchBulkUploader) (d : String)
    (o : Option String) (records : List Record) (l : String)
    (h : l ∈ records.flatMap (recordLines u d o)) :
    ∃ fs, l = jsonDumps (JsonValue.obj fs) := by
  rw [List.mem_flatMap] at h
  obtain ⟨r, _, hl⟩ := h
  simp only [recordLines, List.mem_cons, List.mem_singleton, List.not_mem_nil,
    or_false] at hl
  rcases hl with h | h
  · exact ⟨[("index", JsonValue.obj
      [("_index", JsonValue.str (finalIndexName u.index_name d))])], h⟩
  · exact ⟨enrichRecord o d r, h⟩

/-! Claim theorems. -/

/-- C1: for every non-empty record list, type detection inspects only the
first record's `metricName` (a missing field is treated as the empty
string), lower-cases it, and returns the first match in the priority order
dv/datavolume, vmi/virtualmachine, pod, else generic; the empty list yields
`unknown`; the four example metric names classify as stated. -/
theorem C1_type_detection (r : Record) (rest : List Record) (m : String)
    (h : dictGet r "metricName" = some (JsonValue.str m)
      ∨ (dictGet r "metricName" = none ∧ m = "")) :
    get_data_type_from_records (r :: rest) = some (detectSpec m)
    ∧ get_data_type_from_records [] = some "unknown"
    ∧ get_data_type_from_records [[("metricName", JsonValue.str "vmiCreationLatency")]]
        = some "vmi-latency"
    ∧ get_data_type_from_records [[("metricName", JsonValue.str "dvReadyLatency")]]
        = some "dv-latency"
    ∧ get_data_type_from_records [[("metricName", JsonValue.str "podScheduledLatency")]]
        = some "pod-latency"
    ∧ get_data_type_from_records [[("metricName", JsonValue.str "customThing")]]
        = some "generic" := by
  refine ⟨?_, rfl, by decide, by decide, by decide, by decide⟩
  rcases h with h | ⟨h, rfl⟩ <;>
    simp [get_data_type_from_records, h, detectSpec, classifyLowered]

theorem C1_type_detection_witness :
    dictGet [("metricName", JsonValue.str "vmiCreationLatency")] "metricName"
      = some (JsonValue.str "vmiCreationLatency")
    ∧ get_data_type_from_records [[("metricName", JsonValue.str "vmiCreationLatency")]]
        = some (detectSpec "vmiCreationLatency") :=
  ⟨rfl, (C1_type_detection [("metricName", JsonValue.str "vmiCreationLatency")] []
    "vmiCreationLatency" (Or.inl rfl)).1⟩

/-- C2: an integer `jobIteration` is rewritten as its decimal string
zero-padded to width 4 (3 becomes "0003", 7 becomes "0007", 12345 stays
"12345" untruncated); the identical rewrite applies to `replica`; absent or
non-integer (in the Python sense, so neither `int` nor `bool`) values are
left unchanged. -/
theorem C2_zero_padding (o : Option String) (c : String) (r : Record) :
    (∀ n : Int, dictGet r "jobIteration" = some (JsonValue.int n) →
      dictGet (enrichRecord o c r) "jobIteration" = some (JsonValue.str (zeroPad4 n)))
    ∧ (∀ n : Int, dictGet r "replica" = some (JsonValue.int n) →
      dictGet (enrichRecord o c r) "replica" = some (JsonValue.str (zeroPad4 n)))
    ∧ (dictGet r "jobIteration" = none → dictGet (enrichRecord o c r) "jobIteration" = none)
    ∧ (∀ v, dictGet r "jobIteration" = some v → pyIsIntInstance v = false →
      dictGet (enrichRecord o c r) "jobIteration" = some v)
    ∧ (dictGet r "replica" = none → dictGet (enrichRecord o c r) "replica" = none)
    ∧ (∀ v, dictGet r "replica" = some v → pyIsIntInstance v = false →
      dictGet (enrichRecord o c r) "replica" = some v)
    ∧ zeroPad4 3 = "0003" ∧ zeroPad4 7 = "0007" ∧ zeroPad4 12345 = "12345" := by
  refine ⟨?_, ?_, ?_, ?_, ?_, ?_, by decide, by decide, by decide⟩
  · intro n hn
    rw [dictGet_enrich_reduce o c r _ (by decide) (by decide) (by decide),
      dictGet_padStep_ne _ _ _ (by decide)]
    refine dictGet_padStep_int _ _ n ?_
    rw [dictGet_orgTag_ne o r _ (by decide)]
    exact hn
  · intro n hn
    rw [dictGet_enrich_reduce o c r _ (by decide) (by decide) (by decide)]
    refine dictGet_padStep_int _ _ n ?_
    rw [dictGet_padStep_ne _ _ _ (by decide), dictGet_orgTag_ne o r _ (by decide)]
    exact hn
  · intro hn
    rw [dictGet_enrich_reduce o c r _ (by decide) (by decide) (by decide),
      dictGet_padStep_ne _ _ _ (by decide)]
    refine dictGet_padStep_none _ _ ?_
    rw [dictGet_orgTag_ne o r _ (by decide)]
    exact hn
  · intro v hv hvi
    rw [dictGet_enrich_reduce o c r _ (by decide) (by decide) (by decide),
      dictGet_padStep_ne _ _ _ (by decide)]
    refine dictGet_padStep_other _ _ v ?_ hvi
    rw [dictGet_orgTag_ne o r _ (by decide)]
    exact hv
  · intro hn
    rw [dictGet_enrich_reduce o c r _ (by decide) (by decide) (by decide)]
    refine dictGet_padStep_none _ _ ?_
    rw [dictGet_padStep_ne _ _ _ (by decide), dictGet_orgTag_ne o r _ (by decide)]
    exact hn
  · intro v hv hvi
    rw [dictGet_enrich_reduce o c r _ (by decide) (by decide) (by decide)]
    refine dictGet_padStep_other _ _ v ?_ hvi
    rw [dictGet_padStep_ne _ _ _ (by decide), dictGet_orgTag_ne o r _ (by decide)]
    exact hv

theorem C2_zero_padding_witness :
    dictGet [("jobIteration", JsonValue.int 3)] "jobIteration" = some (JsonValue.int 3)
    ∧ dictGet (enrichRecord none "generic" [("jobIteration", JsonValue.int 3)]) "jobIteration"
        = some (JsonValue.str (zeroPad4 3)) :=
  ⟨rfl, (C2_zero_padding none "generic" [("jobIteration", JsonValue.int 3)]).1 3 rfl⟩

/-- C3: after enrichment every record carries `source = "direct-api"` and
`dataType` equal to the batch category, both overwriting prior values; when
the record had a `timestamp` field its value is copied verbatim into
`@timestamp` (overwriting any pre-existing `@timestamp`), and a record
without `timestamp` gains no `@timestamp` field. -/
theorem C3_metadata_fields (o : Option String) (c : String) (r : Record) :
    dictGet (enrichRecord o c r) "source" = some (JsonValue.str "direct-api")
    ∧ dictGet (enrichRecord o c r) "dataType" = some (JsonValue.str c)
    ∧ (∀ ts, dictGet r "timestamp" = some ts →
      dictGet (enrichRecord o c r) "@timestamp" = some ts)
    ∧ (dictGet r "timestamp" = none →
      dictGet (enrichRecord o c r) "@timestamp" = dictGet r "@timestamp") := by
  refine ⟨?_, ?_, ?_, ?_⟩
  · unfold enrichRecord
    rw [dictGet_timestampStep_ne _ _ (by decide), dictGet_dictSet_ne _ _ _ _ (by decide)]
    exact dictGet_dictSet_self _ _ _
  · unfold enrichRecord
    rw [dictGet_timestampStep_ne _ _ (by decide)]
    exact dictGet_dictSet_self _ _ _
  · intro ts hts
    unfold enrichRecord
    refine dictGet_timestampStep_of_ts _ ts ?_
    rw [dictGet_dictSet_ne _ _ _ _ (by decide), dictGet_dictSet_ne _ _ _ _ (by decide),
      dictGet_padStep_ne _ _ _ (by decide), dictGet_padStep_ne _ _ _ (by decide),
      dictGet_orgTag_ne o r _ (by decide)]
    exact hts
  · intro h0
    unfold enrichRecord
    have hts0 : dictGet
        (dictSet (dictSet (padStep "replica" (padStep "jobIteration" (orgTag o r)))
          "source" (JsonValue.str "direct-api")) "dataType" (JsonValue.str c))
        "timestamp" = none := by
      rw [dictGet_dictSet_ne _ _ _ _ (by decide), dictGet_dictSet_ne _ _ _ _ (by decide),
        dictGet_padStep_ne _ _ _ (by decide), dictGet_padStep_ne _ _ _ (by decide),
        dictGet_orgTag_ne o r _ (by decide)]
      exact h0
    rw [timestampStep_of_no_ts _ hts0]
    rw [dictGet_dictSet_ne _ _ _ _ (by decide), dictGet_dictSet_ne _ _ _ _ (by decide),
      dictGet_padStep_ne _ _ _ (by decide), dictGet_padStep_ne _ _ _ (by decide),
      dictGet_orgTag_ne o r _ (by decide)]

theorem C3_metadata_fields_witness :
    dictGet [("timestamp", JsonValue.str "2024-01-01T00:00:00Z")] "timestamp"
      = some (JsonValue.str "2024-01-01T00:00:00Z")
    ∧ dictGet (enrichRecord (some "acme") "dv-latency"
        [("timestamp", JsonValue.str "2024-01-01T00:00:00Z")]) "@timestamp"
      = some (JsonValue.str "2024-01-01T00:00:00Z") :=
  ⟨rfl, (C3_metadata_fields (some "acme") "dv-latency"
    [("timestamp", JsonValue.str "2024-01-01T00:00:00Z")]).2.2.1
    (JsonValue.str "2024-01-01T00:00:00Z") rfl⟩

/-- C4: the sentinel mode `auto` triggers detection while any other mode is
used verbatim for the whole batch; the action line of every record carries
the index name `prefix ++ "-" ++ category` for a non-generic category and
exactly the prefix for `generic`; the two concrete examples from the spec
evaluate as stated. -/
theorem C4_index_routing (u : OpenSearchBulkUploader) (records : List Record)
    (p c : String) (o : Option String) (r : Record) :
    (u.data_type = "auto" → detectedDataType u records = get_data_type_from_records records)
    ∧ (u.data_type ≠ "auto" → detectedDataType u records = some u.data_type)
    ∧ (c ≠ "generic" → finalIndexName p c = p ++ "-" ++ c)
    ∧ finalIndexName p "generic" = p
    ∧ finalIndexName "kube-burner-data" "vmi-latency" = "kube-burner-data-vmi-latency"
    ∧ finalIndexName "kube-burner-data" "generic" = "kube-burner-data"
    ∧ recordLines u c o r
        = [jsonDumps (actionLine u.index_name c),
           jsonDumps (JsonValue.obj (enrichRecord o c r))] := by
  refine ⟨?_, ?_, ?_, ?_, by decide, by decide, rfl⟩
  · intro h
    simp [detectedDataType, h]
  · intro h
    simp [detectedDataType, h]
  · intro h
    simp [finalIndexName, h, String.append_assoc]
  · simp [finalIndexName, String.append_empty]

theorem C4_index_routing_witness :
    ("vmi-latency" : String) ≠ "generic"
    ∧ finalIndexName "kube-burner-data" "vmi-latency"
        = "kube-burner-data" ++ "-" ++ "vmi-latency" :=
  ⟨by decide, (C4_index_routing ⟨"kube-burner-data", "auto"⟩ [] "kube-burner-data"
    "vmi-latency" none []).2.2.1 (by decide)⟩

/-- C7: enrichment never deletes a field: every key present before is still
present after; and for a record lacking `jobIteration` and `replica`, every
field other than `organizationID` (touched only when an organization id is
supplied), `source`, `dataType` and `@timestamp` keeps its original value —
including `organizationID` itself when the supplied id is absent or empty. -/
theorem C7_frame_effect (o : Option String) (c : String) (r : Record) (k : String) :
    ((dictGet r k).isSome → (dictGet (enrichRecord o c r) k).isSome)
    ∧ (dictGet r "jobIteration" = none → dictGet r "replica" = none →
      k ≠ "organizationID" → k ≠ "source" → k ≠ "dataType" → k ≠ "@timestamp" →
      dictGet (enrichRecord o c r) k = dictGet r k)
    ∧ (dictGet r "jobIteration" = none → dictGet r "replica" = none →
      (o = none ∨ o = some "") →
      k ≠ "source" → k ≠ "dataType" → k ≠ "@timestamp" →
      dictGet (enrichRecord o c r) k = dictGet r k) := by
  have frame : ∀ (horg : dictGet (orgTag o r) k = dictGet r k),
      dictGet r "jobIteration" = none → dictGet r "replica" = none →
      k ≠ "source" → k ≠ "dataType" → k ≠ "@timestamp" →
      dictGet (enrichRecord o c r) k = dictGet r k := by
    intro horg hJ hR h2 h3 h4
    rw [dictGet_enrich_reduce o c r k h2 h3 h4]
    by_cases hkr : k = "replica"
    · subst hkr
      rw [dictGet_padStep_none _ _ (by
        rw [dictGet_padStep_ne _ _ _ (by decide)]
        rw [dictGet_orgTag_ne o r _ (by decide)]
        exact hR)]
      exact hR.symm
    · rw [dictGet_padStep_ne _ _ _ hkr]
      by_cases hkj : k = "jobIteration"
      · subst hkj
        rw [dictGet_padStep_none _ _ (by
          rw [dictGet_orgTag_ne o r _ (by decide)]
          exact hJ)]
        exact hJ.symm
      · rw [dictGet_padStep_ne _ _ _ hkj]
        exact horg
  refine ⟨?_, ?_, ?_⟩
  · intro hs
    unfold enrichRecord
    exact dictGet_timestampStep_isSome _ _ (dictGet_dictSet_isSome _ _ _ _
      (dictGet_dictSet_isSome _ _ _ _ (dictGet_padStep_isSome _ _ _
        (dictGet_padStep_isSome _ _ _ (dictGet_orgTag_isSome o r _ hs)))))
  · intro hJ hR h1 h2 h3 h4
    exact frame (dictGet_orgTag_ne o r k h1) hJ hR h2 h3 h4
  · intro hJ hR ho h2 h3 h4
    exact frame (dictGet_orgTag_not_truthy o r k ho) hJ hR h2 h3 h4

theorem C7_frame_effect_witness :
    dictGet [("uuid", JsonValue.str "u1")] "jobIteration" = none
    ∧ dictGet [("uuid", JsonValue.str "u1")] "replica" = none
    ∧ dictGet (enrichRecord (some "acme") "generic" [("uuid", JsonValue.str "u1")]) "uuid"
        = dictGet [("uuid", JsonValue.str "u1")] "uuid" :=
  ⟨rfl, rfl, (C7_frame_effect (some "acme") "generic" [("uuid", JsonValue.str "u1")]
    "uuid").2.1 rfl rfl (by decide) (by decide) (by decide) (by decide)⟩

/-- C8: a template-creation failure neither aborts the upload nor changes the
exit code: the trace of `main` is independent of the template outcome, always
contains the bulk-upload step, and exits 0 exactly on upload success and 1 on
upload failure. -/
theorem C8_exit_code (t t' u : Bool) :
    mainTrace t u = mainTrace t' u
    ∧ MainStep.bulkUpload ∈ mainTrace t u
    ∧ (MainStep.exitCode 0 ∈ mainTrace t u ↔ u = true)
    ∧ (MainStep.exitCode 1 ∈ mainTrace t u ↔ u = false)
    ∧ (∀ n : Nat, MainStep.exitCode n ∈ mainTrace t u → n = if u then 0 else 1) := by
  cases u <;> simp [mainTrace]

theorem C8_exit_code_witness :
    MainStep.exitCode 1 ∈ mainTrace true false
    ∧ (1 : Nat) = if false then 0 else 1 :=
  ⟨by decide, (C8_exit_code true false false).2.2.2.2 1 (by decide)⟩

/-- C9: the Python integer check accepts booleans, so a boolean
`jobIteration` or `replica` is also rewritten: `True` formats as "0001" and
`False` as "0000". -/
theorem C9_bool_padding (o : Option String) (c : String) (r : Record) :
    (∀ b : Bool, dictGet r "jobIteration" = some (JsonValue.bool b) →
      dictGet (enrichRecord o c r) "jobIteration"
        = some (JsonValue.str (if b then "0001" else "0000")))
    ∧ (∀ b : Bool, dictGet r "replica" = some (JsonValue.bool b) →
      dictGet (enrichRecord o c r) "replica"
        = some (JsonValue.str (if b then "0001" else "0000")))
    ∧ pyIsIntInstance (JsonValue.bool true) = true
    ∧ pyIsIntInstance (JsonValue.bool false) = true := by
  refine ⟨?_, ?_, rfl, rfl⟩
  · intro b hb
    rw [dictGet_enrich_reduce o c r _ (by decide) (by decide) (by decide),
      dictGet_padStep_ne _ _ _ (by decide)]
    rw [dictGet_padStep_bool _ _ b (by
      rw [dictGet_orgTag_ne o r _ (by decide)]
      exact hb)]
    cases b <;> rfl
  · intro b hb
    rw [dictGet_enrich_reduce o c r _ (by decide) (by decide) (by decide)]
    rw [dictGet_padStep_bool _ _ b (by
      rw [dictGet_padStep_ne _ _ _ (by decide), dictGet_orgTag_ne o r _ (by decide)]
      exact hb)]
    cases b <;> rfl

theorem C9_bool_padding_witness :
    dictGet [("jobIteration", JsonValue.bool true)] "jobIteration"
      = some (JsonValue.bool true)
    ∧ dictGet (enrichRecord none "generic" [("jobIteration", JsonValue.bool true)])
        "jobIteration" = some (JsonValue.str (if true then "0001" else "0000")) :=
  ⟨rfl, (C9_bool_padding none "generic" [("jobIteration", JsonValue.bool true)]).1 true rfl⟩

/-- C10: an organization id supplied as the empty string (or not at all) is
falsy, so the record is not tagged and a pre-existing `organizationID` is
left unchanged; a non-empty id is written unconditionally. -/
theorem C10_empty_org_id (c : String) (r : Record) :
    dictGet (enrichRecord none c r) "organizationID" = dictGet r "organizationID"
    ∧ dictGet (enrichRecord (some "") c r) "organizationID" = dictGet r "organizationID"
    ∧ (∀ oid : String, oid ≠ "" →
      dictGet (enrichRecord (some oid) c r) "organizationID" = some (JsonValue.str oid)) := by
  refine ⟨?_, ?_, ?_⟩
  · rw [dictGet_enrich_reduce none c r _ (by decide) (by decide) (by decide),
      dictGet_padStep_ne _ _ _ (by decide), dictGet_padStep_ne _ _ _ (by decide)]
    exact dictGet_orgTag_not_truthy none r _ (Or.inl rfl)
  · rw [dictGet_enrich_reduce (some "") c r _ (by decide) (by decide) (by decide),
      dictGet_padStep_ne _ _ _ (by decide), dictGet_padStep_ne _ _ _ (by decide)]
    exact dictGet_orgTag_not_truthy (some "") r _ (Or.inr rfl)
  · intro oid hoid
    rw [dictGet_enrich_reduce (some oid) c r _ (by decide) (by decide) (by decide),
      dictGet_padStep_ne _ _ _ (by decide), dictGet_padStep_ne _ _ _ (by decide)]
    exact dictGet_orgTag_truthy oid r hoid

theorem C10_empty_org_id_witness :
    ("acme" : String) ≠ ""
    ∧ dictGet (enrichRecord (some "acme") "generic"
        [("organizationID", JsonValue.str "old")]) "organizationID"
      = some (JsonValue.str "acme") :=
  ⟨by decide, (C10_empty_org_id "generic" [("organizationID", JsonValue.str "old")]).2.2
    "acme" (by decide)⟩

/-- C5 counterexample: for the empty record list the payload built by
`prepare_bulk_data` is the single newline character, whose splitlines
decomposition is one blank line — an odd line count containing a blank line,
contrary to the claim's inclusion of N = 0. -/
theorem C5_payload_structure_cex :
    prepare_bulk_data ⟨"kube-burner-data", "auto"⟩ [] none = some "\n"
    ∧ pySplitlines "\n" = [""]
    ∧ (pySplitlines "\n").length % 2 = 1
    ∧ "" ∈ pySplitlines "\n" :=
  ⟨rfl, rfl, rfl, by decide⟩

/-- C5 (amended): for every non-empty record list the payload splits into
exactly the per-record action/document line pairs in input order — 2·N lines,
none blank and none containing a newline — and the payload ends with exactly
one trailing newline; for the empty list the payload is instead the single
newline character (one blank line). -/
theorem C5_payload_structure (u : OpenSearchBulkUploader) (records : List Record)
    (o : Option String) (d : String) (p : String)
    (hne : records ≠ [])
    (hd : detectedDataType u records = some d)
    (hp : prepare_bulk_data u records o = some p) :
    pySplitlines p = records.flatMap (recordLines u d o)
    ∧ (pySplitlines p).length = 2 * records.length
    ∧ (∀ l ∈ pySplitlines p, l ≠ "" ∧ '\n' ∉ l.data)
    ∧ p.data.getLast? = some '\n'
    ∧ p.data.dropLast.getLast? ≠ some '\n' := by
  have hpd : p = pyJoin "\n" (records.flatMap (recordLines u d o)) ++ "\n" := by
    unfold prepare_bulk_data at hp
    rw [hd] at hp
    simpa using hp.symm
  have hLprops : ∀ l ∈ records.flatMap (recordLines u d o), l.data ≠ [] ∧ '\n' ∉ l.data := by
    intro l hl
    obtain ⟨fs, rfl⟩ := mem_flatMap_recordLines u d o records l hl
    exact ⟨jsonDumps_obj_ne_nil fs, jsonDumps_no_nl _⟩
  have hLne : records.flatMap (recordLines u d o) ≠ [] := by
    intro h0
    have hlen := length_flatMap_recordLines u d o records
    rw [h0] at hlen
    simp only [List.length_nil] at hlen
    have h1 : records.length = 0 := by omega
    exact hne (List.length_eq_zero.mp h1)
  have hsplit : pySplitlines p = records.flatMap (recordLines u d o) := by
    rw [hpd]
    exact pySplitlines_pyJoin _ hLne (fun l hl => (hLprops l hl).2)
  refine ⟨hsplit, ?_, ?_, ?_, ?_⟩
  · rw [hsplit]
    exact length_flatMap_recordLines u d o records
  · intro l hl
    rw [hsplit] at hl
    refine ⟨?_, (hLprops l hl).2⟩
    intro h0
    subst h0
    exact (hLprops _ hl).1 rfl
  · rw [hpd, String.data_append, show ("\n" : String).data = ['\n'] from rfl]
    exact List.getLast?_concat _
  · rw [hpd, String.data_append, show ("\n" : String).data = ['\n'] from rfl,
      List.dropLast_concat]
    exact (pyJoin_last_ne_nl _ hLne hLprops).2

theorem C5_payload_structure_witness :
    ([[("metricName", JsonValue.str "podScheduledLatency")]] : List Record) ≠ []
    ∧ detectedDataType ⟨"kube-burner-data", "auto"⟩
        [[("metricName", JsonValue.str "podScheduledLatency")]] = some "pod-latency"
    ∧ prepare_bulk_data ⟨"kube-burner-data", "auto"⟩
        [[("metricName", JsonValue.str "podScheduledLatency")]] none
      = some "\x7b\"index\": \x7b\"_index\": \"kube-burner-data-pod-latency\"\x7d\x7d\n\x7b\"metricName\": \"podScheduledLatency\", \"source\": \"direct-api\", \"dataType\": \"pod-latency\"\x7d\n"
    ∧ (pySplitlines "\x7b\"index\": \x7b\"_index\": \"kube-burner-data-pod-latency\"\x7d\x7d\n\x7b\"metricName\": \"podScheduledLatency\", \"source\": \"direct-api\", \"dataType\": \"pod-latency\"\x7d\n").length
      = 2 * ([[("metricName", JsonValue.str "podScheduledLatency")]] : List Record).length :=
  ⟨List.cons_ne_nil _ _, by decide, by decide,
   (C5_payload_structure ⟨"kube-burner-data", "auto"⟩
     [[("metricName", JsonValue.str "podScheduledLatency")]] none "pod-latency"
     "\x7b\"index\": \x7b\"_index\": \"kube-burner-data-pod-latency\"\x7d\x7d\n\x7b\"metricName\": \"podScheduledLatency\", \"source\": \"direct-api\", \"dataType\": \"pod-latency\"\x7d\n"
     (List.cons_ne_nil _ _) (by decide) (by decide)).2.1⟩

/-! Lemmas for the upload-result claim. -/

theorem dictGet_eq_none_of_any_false (fs : Record) (k : String)
    (h : fs.any (fun p => p.1 == k) = false) : dictGet fs k = none := by
  induction fs with
  | nil => rfl
  | cons p rest ih =>
    obtain ⟨k', v'⟩ := p
    simp only [List.any_cons, Bool.or_eq_false_iff, beq_eq_false_iff_ne] at h
    simp [dictGet, h.1, ih h.2]

theorem itemReportedError_wf (ifs : List (String × JsonValue)) :
    itemReportedError (JsonValue.obj [("index", JsonValue.obj ifs)])
      = some (dictGet ifs "error") := by
  cases herr : ifs.any (fun p => p.1 == "error") with
  | true =>
    simp [itemReportedError, pyContainsKey, dictGet, herr]
  | false =>
    have hnone := dictGet_eq_none_of_any_false ifs "error" herr
    simp [itemReportedError, pyContainsKey, dictGet, herr, hnone]

theorem collectReports_wf (items : List JsonValue)
    (hwf : ∀ item ∈ items, ∃ ifs, item = JsonValue.obj [("index", JsonValue.obj ifs)]) :
    collectReports items = some (items.filterMap (fun item =>
      match item with
      | JsonValue.obj (("index", JsonValue.obj ifs) :: []) => dictGet ifs "error"
      | _ => none)) := by
  induction items with
  | nil => rfl
  | cons item rest ih =>
    obtain ⟨ifs, rfl⟩ := hwf item (by simp)
    have ih' := ih (fun i hi => hwf i (List.mem_cons_of_mem _ hi))
    simp only [collectReports, itemReportedError_wf, ih', List.filterMap_cons]
    cases h0 : dictGet ifs "error" <;> simp [h0]

/-- C6 counterexample: a 304 status is not 2xx, yet `raise_for_status` does
not raise for it, so a 304 response carrying a well-formed body with a false
errors flag yields success — contradicting "returns failure whenever the
bulk POST suffers ... a non-2xx status". -/
theorem C6_upload_result_cex :
    ((304 : Nat) < 200 ∨ 299 < 304)
    ∧ bulk_upload (HttpResult.response 304 (some (JsonValue.obj
        [("errors", JsonValue.bool false), ("items", JsonValue.arr [])])))
      = some ⟨true, [], some 0⟩ :=
  ⟨by decide, rfl⟩

/-- C6 (amended): upload returns failure on a network error, and on any 4xx
or 5xx status — the statuses `raise_for_status` raises for — without
interpreting the body; with a parsed object body, a true errors flag gives
failure with the error object of every item whose index action carries an
error field reported individually; success, carrying the indexed-item count,
arises exactly when the status is outside 400-599, the body parses to an
object, and the errors flag is falsy. -/
theorem C6_upload_result (status : Nat) (body : Option JsonValue)
    (fields : List (String × JsonValue)) (items : List JsonValue) :
    bulk_upload HttpResult.netError = some ⟨false, [], none⟩
    ∧ (400 ≤ status → status < 600 →
      bulk_upload (HttpResult.response status body) = some ⟨false, [], none⟩)
    ∧ (¬(400 ≤ status ∧ status < 600) →
      dictGet fields "errors" = some (JsonValue.bool true) →
      dictGet fields "items" = some (JsonValue.arr items) →
      (∀ item ∈ items, ∃ ifs, item = JsonValue.obj [("index", JsonValue.obj ifs)]) →
      bulk_upload (HttpResult.response status (some (JsonValue.obj fields)))
        = some ⟨false, items.filterMap (fun item =>
            match item with
            | JsonValue.obj (("index", JsonValue.obj ifs) :: []) => dictGet ifs "error"
            | _ => none), none⟩)
    ∧ (¬(400 ≤ status ∧ status < 600) →
      dictGet fields "errors" = some (JsonValue.bool false) →
      dictGet fields "items" = some (JsonValue.arr items) →
      bulk_upload (HttpResult.response status (some (JsonValue.obj fields)))
        = some ⟨true, [], some items.length⟩)
    ∧ (∀ resp out, bulk_upload resp = some out → out.success = true →
      ∃ st fs, resp = HttpResult.response st (some (JsonValue.obj fs))
        ∧ ¬(400 ≤ st ∧ st < 600)
        ∧ pyTruthy ((dictGet fs "errors").getD JsonValue.null) = false
        ∧ out.reportedErrors = [] ∧ ∃ cnt, out.indexedCount = some cnt) := by
  refine ⟨rfl, ?_, ?_, ?_, ?_⟩
  · intro h1 h2
    have hb : raiseForStatusFails status = true := by
      simp [raiseForStatusFails]
      omega
    simp [bulk_upload, hb]
  · intro hs herr hitems hwf
    have hb : raiseForStatusFails status = false := by
      simp [raiseForStatusFails]
      omega
    have hiter : itemsIter fields = some items := by
      simp [itemsIter, hitems, pyIterate]
    simp [bulk_upload, hb, herr, pyTruthy, hiter, collectReports_wf items hwf]
  · intro hs herr hitems
    have hb : raiseForStatusFails status = false := by
      simp [raiseForStatusFails]
      omega
    have hlen : itemsLen fields = some items.length := by
      simp [itemsLen, hitems, pyLen]
    simp [bulk_upload, hb, herr, pyTruthy, hlen]
  · intro resp out hb hsucc
    cases resp with
    | netError =>
      simp only [bulk_upload, Option.some.injEq] at hb
      rw [← hb] at hsucc
      simp at hsucc
    | response st bd =>
      cases hraise : raiseForStatusFails st with
      | true =>
        simp [bulk_upload, hraise] at hb
        rw [← hb] at hsucc
        simp at hsucc
      | false =>
        cases bd with
        | none =>
          simp [bulk_upload, hraise] at hb
          rw [← hb] at hsucc
          simp at hsucc
        | some j =>
          cases j with
          | str s => simp [bulk_upload, hraise] at hb
          | int n => simp [bulk_upload, hraise] at hb
          | bool b => simp [bulk_upload, hraise] at hb
          | null => simp [bulk_upload, hraise] at hb
          | arr xs => simp [bulk_upload, hraise] at hb
          | obj fs =>
            by_cases herrs : pyTruthy ((dictGet fs "errors").getD JsonValue.null) = true
            · cases hit : itemsIter fs with
              | none => simp [bulk_upload, hraise, herrs, hit] at hb
              | some its =>
                cases hcr : collectReports its with
                | none => simp [bulk_upload, hraise, herrs, hit, hcr] at hb
                | some reps =>
                  simp [bulk_upload, hraise, herrs, hit, hcr] at hb
                  rw [← hb] at hsucc
                  simp at hsucc
            · have herrs' : pyTruthy ((dictGet fs "errors").getD JsonValue.null) = false := by
                cases hx : pyTruthy ((dictGet fs "errors").getD JsonValue.null) with
                | true => exact absurd hx herrs
                | false => rfl
              cases hlen : itemsLen fs with
              | none => simp [bulk_upload, hraise, herrs', hlen] at hb
              | some cnt =>
                simp [bulk_upload, hraise, herrs', hlen] at hb
                refine ⟨st, fs, rfl, ?_, herrs', ?_, cnt, ?_⟩
                · intro hcontra
                  have ht : raiseForStatusFails st = true := by
                    simp [raiseForStatusFails]
                    omega
                  exact absurd (ht.symm.trans hraise) (by decide)
                · rw [← hb]
                · rw [← hb]

theorem C6_upload_result_witness :
    400 ≤ 500 ∧ 500 < 600
    ∧ bulk_upload (HttpResult.response 500 none) = some ⟨false, [], none⟩ :=
  ⟨by decide, by decide, (C6_upload_result 500 none [] []).2.1 (by decide) (by decide)⟩
